import Mathlib

/-!
# LogCabin `Server/LocalServer.cc`: the PID file and the server bootstrap

A shallow embedding of the class `PidFile` and of `LocalServer::init`, followed by a
model of vote granting in the consensus core that `init` starts.

* Bytes are natural numbers (`48` is `'0'`, `10` is `'\n'`, `0` is NUL).
* The C type `int` is `Int`, with the range `[-2^31, 2^31)` stated where it matters.
* The file system is a map from file names to contents (`none`: no such file).
* Each system call that may fail takes its result from an explicit environment record.
* `PANIC` (which aborts the process) and behaviour the C standard leaves undefined
  are outcomes of their own.
-/

namespace LogCabin

/-! ## Outcomes, bytes and the file system -/

/-- Result of running a piece of the C++ program. -/
inductive Outcome (σ : Type) where
  /-- The call returned to its caller, leaving state `s`. -/
  | done (s : σ) : Outcome σ
  /-- Reached `PANIC(...)`: the process is aborted. -/
  | panic : Outcome σ
  /-- The C standard gives the execution no meaning (out-of-bounds read). -/
  | undefined : Outcome σ
  deriving DecidableEq, Repr

/-- File contents, `readbuf` and C strings are sequences of bytes. -/
abbrev Bytes := List Nat

/-- The files of the machine: `none` when no file has that name. -/
abbrev FileSystem := String → Option Bytes

/-- Lower bound of the C type `int`. -/
def INT_MIN : Int := -2147483648

/-- Upper bound of the C type `int`. -/
def INT_MAX : Int := 2147483647

/-- Conversion of a `long` to `int` as gcc does it: reduction modulo `2^32`
into `[-2^31, 2^31)`. -/
def toInt32 (v : Int) : Int := (v + 2147483648) % 4294967296 - 2147483648

/-! ## `Core::StringUtil::format("%d\n", pid)` -/

/-- Decimal digits of `n`, most significant first, pushed in front of `acc`.
`fuel` bounds the number of digits produced. -/
def decimalAux : Nat → Nat → Bytes → Bytes
  | 0, _, acc => acc
  | fuel + 1, n, acc =>
    if n < 10 then (48 + n) :: acc
    else decimalAux fuel (n / 10) ((48 + n % 10) :: acc)

/-- The text `printf("%u")` produces for `n`. -/
def decimalNat (n : Nat) : Bytes := decimalAux (n + 1) n []

/-- The text `printf("%d")` produces for `i`: a minus sign for negative numbers,
then the decimal digits of the absolute value. -/
def decimal (i : Int) : Bytes :=
  if i < 0 then 45 :: decimalNat i.natAbs else decimalNat i.natAbs

/-- The value of `StringUtil::format("%d\n", pid)`. -/
def formatPid (pid : Int) : Bytes := decimal pid ++ [10]

/-! ## `atoi` on the array `readbuf` -/

/-- C `isspace` in the "C" locale: space, `\t`, `\n`, `\v`, `\f`, `\r`. -/
def isSpace (c : Nat) : Bool := c = 32 || (9 ≤ c && c ≤ 13)

/-- C `isdigit`. -/
def isDigit (c : Nat) : Bool := 48 ≤ c && c ≤ 57

/-- The digit loop of `atoi`: accumulates decimal digits until the first byte
that is not a digit (the terminating NUL included). Reaching the end of the
array means that the next read is outside `readbuf`: `none`. -/
def atoiDigits : Bytes → Nat → Option Nat
  | [], _ => none
  | c :: cs, acc => if isDigit c then atoiDigits cs (acc * 10 + (c - 48)) else some acc

/-- The sign step of `atoi`: an optional `+` or `-`, then the digits. -/
def atoiSigned : Bytes → Option Int
  | [] => none
  | c :: cs =>
    if c = 45 then (atoiDigits cs 0).map (fun v => toInt32 (-(v : Int)))
    else if c = 43 then (atoiDigits cs 0).map (fun v => toInt32 (v : Int))
    else (atoiDigits (c :: cs) 0).map (fun v => toInt32 (v : Int))

/-- The call `atoi(buf)` on an array holding exactly the bytes `buf`: leading white
space is skipped, then a signed decimal number is read. The result is `none` when
the scan runs off the end of the array without meeting a byte that stops it. -/
def atoi : Bytes → Option Int
  | [] => none
  | c :: cs => if isSpace c then atoi cs else atoiSigned (c :: cs)

/-! ## The class `PidFile` -/

/-- The two data members of `PidFile`. -/
structure PidFile where
  filename : String
  written : Int
  deriving DecidableEq, Repr

/-- The constructor `PidFile(filename)`: `written` starts at `-1`. -/
def PidFile.new (filename : String) : PidFile := { filename := filename, written := -1 }

/-- What the operating system answers during one call of `writePid`. -/
structure WriteEnv where
  /-- Whether `fopen(filename, "w")` returns a stream. -/
  openOk : Bool
  /-- The most bytes `fwrite` accepts. -/
  writeLimit : Nat
  /-- Whether `fclose` returns 0. -/
  closeOk : Bool
  deriving DecidableEq, Repr

/-- What the operating system answers during one call of `removeFile`. -/
structure RemoveEnv where
  /-- Whether `fopen(filename, "r")` is not refused (the file must exist as well). -/
  openOk : Bool
  /-- The most bytes `fread` delivers. -/
  readLimit : Nat
  /-- Whether `unlink` returns 0. -/
  unlinkOk : Bool
  deriving DecidableEq, Repr

/-- The file system with `name` bound to `content`. -/
def FileSystem.set (fs : FileSystem) (name : String) (content : Option Bytes) : FileSystem :=
  fun n => if n = name then content else fs n

/-- The member function `PidFile::writePid(int pid)`. -/
def PidFile.writePid (env : WriteEnv) (fs : FileSystem) (self : PidFile) (pid : Int) :
    Outcome (FileSystem × PidFile) :=
  if self.filename = "" then .done (fs, self)
  else if !env.openOk then .panic
  else
    -- mode "w" creates the file or truncates it to length zero
    let fs1 := fs.set self.filename (some [])
    let pidString := formatPid pid
    let bytesWritten := min pidString.length env.writeLimit
    if bytesWritten ≠ pidString.length then .panic
    else if !env.closeOk then .panic
    else
      let fs2 := fs1.set self.filename (some pidString)
      .done (fs2, { self with written := pid })

/-- The array `readbuf` after `memset(readbuf, 0, 10)` and
`fread(readbuf, 1, 10, file)` delivered `bytesRead` bytes of `content`. -/
def readbufAfterRead (content : Bytes) (bytesRead : Nat) : Bytes :=
  content.take bytesRead ++ List.replicate (10 - bytesRead) 0

/-- The member function `PidFile::removeFile()`. -/
def PidFile.removeFile (env : RemoveEnv) (fs : FileSystem) (self : PidFile) :
    Outcome (FileSystem × PidFile) :=
  if self.written < 0 then .done (fs, self)
  else if !env.openOk then .done (fs, self)
  else
    match fs self.filename with
    | none => .done (fs, self)
    | some content =>
      let bytesRead := min (min 10 content.length) env.readLimit
      let readbuf := readbufAfterRead content bytesRead
      if bytesRead = 0 then .done (fs, self)
      else
        match atoi readbuf with
        | none => .undefined
        | some pidRead =>
          if pidRead ≠ self.written then .done (fs, self)
          else if !env.unlinkOk then .done (fs, self)
          else .done (fs.set self.filename none, { self with written := -1 })

/-- The destructor `~PidFile()`. -/
def PidFile.destroy (env : RemoveEnv) (fs : FileSystem) (self : PidFile) :
    Outcome (FileSystem × PidFile) :=
  self.removeFile env fs

/-- Value of a run of decimal digit bytes read after the partial value `acc`. -/
def digitsValue (ds : Bytes) (acc : Nat) : Nat :=
  ds.foldl (fun a c => a * 10 + (c - 48)) acc

/-! ## `LocalServer::init` -/

/-- How a call into a collaborator ends. `Core::Config::Exception` is the only
exception the source names. -/
inductive CallEnd where
  | returns
  | throwsConfigException
  deriving DecidableEq, Repr

/-- The calls `LocalServer::init` makes on its collaborators. -/
inductive Call where
  /-- Call of `Core::ThreadId::setName("evloop")`. -/
  | setThreadName
  /-- Call of `globals->config.readFile(configFilename.c_str())`. -/
  | readFile (configFilename : String)
  /-- Call of `globals->config.read<std::string>("logPolicy", "NOTICE")`. -/
  | readLogPolicy
  /-- Call of `Core::Debug::setLogPolicy(Core::Debug::logPolicyFromString(...))`. -/
  | setLogPolicy
  /-- Call of `globals->init()`. -/
  | globalsInit
  /-- Call of `globals->raft->bootstrapConfiguration()`. -/
  | bootstrapConfiguration
  /-- Call of `globals->leaveSignalsBlocked()`. -/
  | leaveSignalsBlocked
  /-- Call of `ERROR("Fatal exception from config file: %s", e.what())` in the handler. -/
  | logError
  deriving DecidableEq, Repr

/-- What the surroundings of one call of `init` answer. -/
structure InitEnv where
  /-- The value of `getpid()`. -/
  pid : Int
  /-- The system calls under `pidFile.writePid`. -/
  write : WriteEnv
  /-- The system calls under `~PidFile`. -/
  remove : RemoveEnv
  readFile : CallEnd
  readLogPolicy : CallEnd
  globalsInit : CallEnd
  bootstrapConfiguration : CallEnd
  leaveSignalsBlocked : CallEnd
  deriving DecidableEq, Repr

/-- How a call of `init` ends. -/
inductive InitEnding where
  | returned
  | panicked
  | undefined
  deriving DecidableEq, Repr

/-- What a call of `init` leaves behind: the collaborator calls it made, in order,
the file system, and how it ended. -/
structure InitResult where
  calls : List Call
  fs : FileSystem
  ending : InitEnding

/-- Straight-line execution of calls: each call is started in turn, and the first
one that throws ends the sequence. -/
def runCalls : List (Call × CallEnd) → List Call × CallEnd
  | [] => ([], .returns)
  | (c, .returns) :: rest => (c :: (runCalls rest).1, (runCalls rest).2)
  | (c, .throwsConfigException) :: _ => ([c], .throwsConfigException)

/-- The statements of the `try` block of `init` that follow `pidFile.writePid(getpid())`. -/
def LocalServer.tryBody (env : InitEnv) (configFilename : String) (bootstrap : Bool) :
    List (Call × CallEnd) :=
  [ (.readFile configFilename, env.readFile),
    (.readLogPolicy, env.readLogPolicy),
    (.setLogPolicy, .returns),
    (.globalsInit, env.globalsInit),
    if bootstrap then (.bootstrapConfiguration, env.bootstrapConfiguration)
    else (.leaveSignalsBlocked, env.leaveSignalsBlocked) ]

/-- The first statements of the `try` block of `init`:
`std::string pidFilename; PidFile pidFile(pidFilename); pidFile.writePid(getpid());`.
The string `pidFilename` is default-constructed and never assigned. -/
def LocalServer.initPidFile (env : InitEnv) (fs : FileSystem) : Outcome (FileSystem × PidFile) :=
  let pidFilename : String := ""
  let pidFile := PidFile.new pidFilename
  pidFile.writePid env.write fs env.pid

/-- The member function `LocalServer::init(globals, configFilename, bootstrap)`. -/
def LocalServer.init (env : InitEnv) (fs : FileSystem) (configFilename : String)
    (bootstrap : Bool) : InitResult :=
  match LocalServer.initPidFile env fs with
  | .panic => { calls := [.setThreadName], fs := fs, ending := .panicked }
  | .undefined => { calls := [.setThreadName], fs := fs, ending := .undefined }
  | .done (fs1, pidFile) =>
    let body := runCalls (LocalServer.tryBody env configFilename bootstrap)
    -- the try block is left, normally or by the exception: `pidFile` is destroyed
    match pidFile.destroy env.remove fs1 with
    | .panic => { calls := .setThreadName :: body.1, fs := fs1, ending := .panicked }
    | .undefined => { calls := .setThreadName :: body.1, fs := fs1, ending := .undefined }
    | .done (fs2, _) =>
      match body.2 with
      | .returns => { calls := .setThreadName :: body.1, fs := fs2, ending := .returned }
      | .throwsConfigException =>
        -- catch (const Core::Config::Exception& e)
        { calls := .setThreadName :: body.1 ++ [.logError], fs := fs2, ending := .returned }

/-- The call `a` occurs in the sequence `calls` and the call `b` occurs later. -/
def CalledBefore (a b : Call) (calls : List Call) : Prop :=
  ∃ l1 l2 l3, calls = l1 ++ a :: l2 ++ b :: l3

/-! ## Vote granting in the consensus core

`LocalServer::init` hands control to `globals->raft`, an object of the class
declared in `Server/RaftConsensus.h`. That class is not part of the sources at hand;
the definitions of this section follow sections 3, 4.1 and 6 of the specification.
-/

namespace Raft

/-- Modelled from the spec: server identifiers (section 3, "set of server
identifiers"); `Server/RaftConsensus.h` is missing. -/
abbrev ServerId := Nat

/-- Modelled from the spec: "Term: monotonically increasing integer; a logical
clock"; `Server/RaftConsensus.h` is missing. -/
abbrev Term := Nat

/-- Modelled from the spec: "Server Role: one of {Follower, Candidate, Leader}";
`Server/RaftConsensus.h` is missing. -/
inductive Role where
  | follower
  | candidate
  | leader
  deriving DecidableEq, Repr

/-- Modelled from the spec: "Payload variants: {StateMachineCommand, Configuration,
NoOp}"; the log entry type of the missing consensus module. -/
inductive Payload where
  | stateMachineCommand (clientId requestId command : Nat)
  | configuration (oldSet newSet : List ServerId)
  | noOp
  deriving DecidableEq, Repr

/-- Modelled from the spec: "LogEntry: {index (1-based, contiguous, gap-free), term,
payload}"; the index of an entry is its position in the log. The log entry type of
the missing consensus module. -/
structure LogEntry where
  term : Term
  payload : Payload
  deriving DecidableEq, Repr

/-- Modelled from the spec: "Log: ordered sequence of LogEntry plus a
lastSnapshotIndex/lastSnapshotTerm marking the compacted prefix"; the log of the
missing consensus module. -/
structure Log where
  entries : List LogEntry
  lastSnapshotIndex : Nat
  lastSnapshotTerm : Term
  deriving DecidableEq, Repr

/-- Modelled from the spec: index of the last entry of the log, entries being
numbered from 1 after the compacted prefix; the missing consensus module. -/
def Log.lastLogIndex (log : Log) : Nat := log.lastSnapshotIndex + log.entries.length

/-- Modelled from the spec: term of the last entry of the log, or of the snapshot
when no entry follows it; the missing consensus module. -/
def Log.lastLogTerm (log : Log) : Term :=
  match log.entries.getLast? with
  | some e => e.term
  | none => log.lastSnapshotTerm

/-- Modelled from the spec: "RequestVote: request {term, candidateId, lastLogIndex,
lastLogTerm}" (section 6); the message types of the consensus module are missing. -/
structure RequestVote where
  term : Term
  candidateId : ServerId
  lastLogIndex : Nat
  lastLogTerm : Term
  deriving DecidableEq, Repr

/-- Modelled from the spec: "reply {term, voteGranted}" (section 6); the message
types of the consensus module are missing. -/
structure RequestVoteReply where
  term : Term
  voteGranted : Bool
  deriving DecidableEq, Repr

/-- Modelled from the spec: "PersistentState: {currentTerm, votedFor (nullable
candidate id, valid only for currentTerm), log}", together with the role, the grants
a candidate has accumulated and the replication cursors of a leader; the state of
the class in the missing `Server/RaftConsensus.h`. -/
structure ServerState where
  currentTerm : Term
  votedFor : Option ServerId
  log : Log
  role : Role
  votesGranted : List ServerId
  nextIndex : List (ServerId × Nat)
  deriving DecidableEq, Repr

/-- Modelled from the spec: the vote of `s` in term `t`; `votedFor` is "valid only
for currentTerm", so for any other term no vote is recorded. The missing consensus
module. -/
def ServerState.votedForIn (s : ServerState) (t : Term) : Option ServerId :=
  if s.currentTerm = t then s.votedFor else none

/-- Modelled from the spec: "the receiver first adopts req.term and reverts to
Follower"; the vote of the older term is not valid for the new one. The step-down
routine of the missing consensus module. -/
def adoptTerm (s : ServerState) (t : Term) : ServerState :=
  { s with currentTerm := t, votedFor := none, role := .follower }

/-- Modelled from the spec: "the candidate's log is at least as up-to-date as the
receiver's (compare by (lastLogTerm, lastLogIndex) lexicographically)"; part of the
missing `handleRequestVote`. -/
def logUpToDate (req : RequestVote) (log : Log) : Bool :=
  decide (log.lastLogTerm < req.lastLogTerm) ||
    (decide (req.lastLogTerm = log.lastLogTerm) && decide (log.lastLogIndex ≤ req.lastLogIndex))

/-- Modelled from the spec: `handleRequestVote(req)` of section 4.1, missing with the
consensus module. "If req.term > currentTerm, the receiver first adopts req.term and
reverts to Follower"; it "grants the vote iff req.term ≥ currentTerm AND (votedFor
is unset for req.term OR already granted to req.candidateId) AND the candidate's log
is at least as up-to-date as the receiver's"; "Granting persists {term, votedFor}
before replying. Returns {term, voteGranted}." -/
def handleRequestVote (s : ServerState) (req : RequestVote) : ServerState × RequestVoteReply :=
  let s1 := if s.currentTerm < req.term then adoptTerm s req.term else s
  let grant : Bool :=
    decide (s1.currentTerm ≤ req.term) &&
      (decide (s1.votedFor = none) || decide (s1.votedFor = some req.candidateId)) &&
      logUpToDate req s1.log
  let s2 := if grant then { s1 with votedFor := some req.candidateId } else s1
  (s2, { term := s2.currentTerm, voteGranted := grant })

end Raft

/-! ## Facts about `format` and `atoi` -/

theorem decimalAux_append (fuel n : Nat) (acc : Bytes) :
    decimalAux fuel n acc = decimalAux fuel n [] ++ acc := by
  induction fuel generalizing n acc with
  | zero => simp [decimalAux]
  | succ fuel ih =>
    unfold decimalAux
    split
    · simp
    · rw [ih (n / 10) ((48 + n % 10) :: acc), ih (n / 10) [48 + n % 10]]
      simp

theorem decimalAux_isDigit (fuel n : Nat) (acc : Bytes)
    (hacc : ∀ c ∈ acc, isDigit c = true) :
    ∀ c ∈ decimalAux fuel n acc, isDigit c = true := by
  induction fuel generalizing n acc with
  | zero => simpa [decimalAux] using hacc
  | succ fuel ih =>
    unfold decimalAux
    split
    · rename_i h
      intro c hc
      rcases List.mem_cons.mp hc with rfl | hc
      · simp [isDigit]; omega
      · exact hacc c hc
    · apply ih
      intro c hc
      rcases List.mem_cons.mp hc with rfl | hc
      · simp [isDigit]; omega
      · exact hacc c hc

theorem decimalAux_value (fuel n : Nat) (acc : Bytes) (h : n < 10 ^ fuel) :
    digitsValue (decimalAux fuel n acc) 0 = digitsValue acc n := by
  induction fuel generalizing n acc with
  | zero =>
    have : n = 0 := by simpa using h
    simp [decimalAux, this]
  | succ fuel ih =>
    unfold decimalAux
    split
    · simp [digitsValue]
    · have h1 : n / 10 < 10 ^ fuel := by
        rw [Nat.div_lt_iff_lt_mul (by norm_num)]
        rw [pow_succ] at h
        exact h
      rw [ih (n / 10) _ h1]
      have h2 : n / 10 * 10 + n % 10 = n := by omega
      simp [digitsValue, h2]

theorem decimalAux_length (fuel n k : Nat) (acc : Bytes) (hk : 1 ≤ k) (h : n < 10 ^ k) :
    (decimalAux fuel n acc).length ≤ k + acc.length := by
  induction fuel generalizing n k acc with
  | zero => simp [decimalAux]
  | succ fuel ih =>
    unfold decimalAux
    split
    · simp; omega
    · rename_i h10
      obtain ⟨k, rfl⟩ : ∃ j, k = j + 1 := ⟨k - 1, by omega⟩
      have hk1 : 1 ≤ k := by
        rcases Nat.eq_zero_or_pos k with rfl | hpos
        · simp at h; omega
        · exact hpos
      have h1 : n / 10 < 10 ^ k := by
        rw [Nat.div_lt_iff_lt_mul (by norm_num)]
        rw [pow_succ] at h
        exact h
      have := ih (n / 10) k ((48 + n % 10) :: acc) hk1 h1
      simp at this
      omega

theorem decimalAux_ne_nil (fuel n : Nat) : decimalAux (fuel + 1) n [] ≠ [] := by
  unfold decimalAux
  split
  · simp
  · rw [decimalAux_append]
    simp

theorem atoiDigits_run (ds : Bytes) (c : Nat) (rest : Bytes) (acc : Nat)
    (hds : ∀ d ∈ ds, isDigit d = true) (hc : isDigit c = false) :
    atoiDigits (ds ++ c :: rest) acc = some (digitsValue ds acc) := by
  induction ds generalizing acc with
  | nil => simp [atoiDigits, hc, digitsValue]
  | cons d ds ih =>
    have hd : isDigit d = true := hds d (List.mem_cons_self _ _)
    have h := ih (acc * 10 + (d - 48)) (fun x hx => hds x (List.mem_cons_of_mem _ hx))
    simpa [atoiDigits, hd, digitsValue] using h

theorem decimalNat_value (n : Nat) : digitsValue (decimalNat n) 0 = n := by
  have h : n < 10 ^ (n + 1) := Nat.lt_of_lt_of_le (Nat.lt_succ_self n) (Nat.lt_pow_self (by norm_num) _).le
  simpa [decimalNat, digitsValue] using decimalAux_value (n + 1) n [] h

theorem decimalNat_isDigit (n : Nat) : ∀ c ∈ decimalNat n, isDigit c = true :=
  decimalAux_isDigit (n + 1) n [] (by simp)

theorem decimalNat_length (n k : Nat) (hk : 1 ≤ k) (h : n < 10 ^ k) :
    (decimalNat n).length ≤ k := by
  simpa [decimalNat] using decimalAux_length (n + 1) n k [] hk h

/-- A buffer that starts with the decimal text of `n` and a newline: `atoi` yields
`n`, whatever follows the newline. -/
theorem atoi_decimalNat (n : Nat) (rest : Bytes) :
    atoi (decimalNat n ++ 10 :: rest) = some (toInt32 n) := by
  have hne : decimalNat n ≠ [] := decimalAux_ne_nil n n
  have hdig := decimalNat_isDigit n
  have hval := decimalNat_value n
  obtain ⟨d, ds, hds⟩ := List.exists_cons_of_ne_nil hne
  rw [hds] at hdig hval ⊢
  have hd : isDigit d = true := hdig d (List.mem_cons_self _ _)
  have hd2 : 48 ≤ d ∧ d ≤ 57 := by simpa [isDigit] using hd
  have hsp : isSpace d = false := by
    simp [isSpace]; omega
  have h45 : d ≠ 45 := by omega
  have h43 : d ≠ 43 := by omega
  have hrun := atoiDigits_run (d :: ds) 10 rest 0 hdig (by decide)
  simp only [List.cons_append] at hrun ⊢
  simp only [atoi, hsp, atoiSigned, h45, h43, if_false, hrun, hval, Option.map_some']
  simp

theorem toInt32_of_int {v : Int} (h1 : INT_MIN ≤ v) (h2 : v ≤ INT_MAX) : toInt32 v = v := by
  unfold INT_MIN at h1
  unfold INT_MAX at h2
  unfold toInt32
  omega

/-! ## `PidFile`: what `writePid` and `removeFile` do -/

theorem digitChar_toNat (d : Nat) (h : d < 10) : (Nat.digitChar d).toNat = 48 + d := by
  interval_cases d <;> rfl

theorem toDigitsCore_eq_decimalAux (fuel n : Nat) (ds : List Char) :
    (Nat.toDigitsCore 10 fuel n ds).map Char.toNat = decimalAux fuel n (ds.map Char.toNat) := by
  induction fuel generalizing n ds with
  | zero => simp [Nat.toDigitsCore, decimalAux]
  | succ fuel ih =>
    unfold Nat.toDigitsCore decimalAux
    by_cases h : n < 10
    · have h0 : n / 10 = 0 := by omega
      have hm : n % 10 = n := by omega
      simp [h, h0, hm, digitChar_toNat n h]
    · have h0 : n / 10 ≠ 0 := by omega
      simp only [h, h0, if_false]
      rw [ih]
      simp [digitChar_toNat (n % 10) (Nat.mod_lt _ (by norm_num))]

/-- The model of `%u` is the decimal rendering Lean itself uses for numbers. -/
theorem decimalNat_eq_toString (n : Nat) :
    decimalNat n = (toString n).toList.map Char.toNat := by
  have h := toDigitsCore_eq_decimalAux (n + 1) n []
  simpa [decimalNat, toString, Nat.repr, Nat.toDigits, List.asString] using h.symm

/-- The model of `%d` is the decimal rendering Lean itself uses for integers. -/
theorem decimal_eq_toString (i : Int) :
    decimal i = (toString i).toList.map Char.toNat := by
  cases i with
  | ofNat m =>
    have h : ¬ (Int.ofNat m < 0) := by simp
    simp only [decimal, h, if_false, Int.natAbs_ofNat, decimalNat_eq_toString]
    rfl
  | negSucc m =>
    have h : Int.negSucc m < 0 := Int.negSucc_lt_zero m
    simp only [decimal, h, if_true, Int.natAbs_negSucc, decimalNat_eq_toString]
    show _ = (("-" ++ toString (Nat.succ m)).toList.map Char.toNat)
    simp

theorem FileSystem.set_same (fs : FileSystem) (name : String) (content : Option Bytes) :
    fs.set name content name = content := by
  simp [FileSystem.set]

theorem FileSystem.set_other (fs : FileSystem) (name other : String) (content : Option Bytes)
    (h : other ≠ name) : fs.set name content other = fs other := by
  simp [FileSystem.set, h]

/-- What `writePid` returns when the file name is not empty and the three stream
calls succeed. -/
theorem PidFile.writePid_done (env : WriteEnv) (fs : FileSystem) (self : PidFile) (pid : Int)
    (hname : self.filename ≠ "") (hopen : env.openOk = true)
    (hwrite : (formatPid pid).length ≤ env.writeLimit) (hclose : env.closeOk = true) :
    self.writePid env fs pid =
      .done ((fs.set self.filename (some [])).set self.filename (some (formatPid pid)),
             { filename := self.filename, written := pid }) := by
  have hmin : min (formatPid pid).length env.writeLimit = (formatPid pid).length :=
    Nat.min_eq_left hwrite
  simp [PidFile.writePid, hname, hopen, hclose, hmin]

/-- C3: for a non-empty file name and any `pid`, when `fopen`, `fwrite` and `fclose`
succeed, `writePid(pid)` returns, the file then holds exactly the decimal text of
`pid` followed by one newline (whatever it held before), `written` is `pid`, and no
other file is touched. -/
theorem PidFile.writePid_postcondition (env : WriteEnv) (fs : FileSystem) (self : PidFile)
    (pid : Int) (hname : self.filename ≠ "") (hopen : env.openOk = true)
    (hwrite : (formatPid pid).length ≤ env.writeLimit) (hclose : env.closeOk = true) :
    ∃ fs', self.writePid env fs pid = .done (fs', { filename := self.filename, written := pid })
      ∧ fs' self.filename = some ((toString pid).toList.map Char.toNat ++ [10])
      ∧ ∀ other, other ≠ self.filename → fs' other = fs other := by
  refine ⟨_, PidFile.writePid_done env fs self pid hname hopen hwrite hclose, ?_, ?_⟩
  · rw [FileSystem.set_same, formatPid, decimal_eq_toString]
  · intro other h
    rw [FileSystem.set_other _ _ _ _ h, FileSystem.set_other _ _ _ _ h]

theorem PidFile.writePid_postcondition_witness :
    ∃ fs', (PidFile.new "logcabin.pid").writePid ⟨true, 64, true⟩ (fun _ => some [1, 2, 3]) (-4242)
        = .done (fs', { filename := "logcabin.pid", written := -4242 })
      ∧ fs' "logcabin.pid" = some ((toString (-4242 : Int)).toList.map Char.toNat ++ [10])
      ∧ ∀ other, other ≠ "logcabin.pid" → fs' other = some [1, 2, 3] :=
  PidFile.writePid_postcondition ⟨true, 64, true⟩ (fun _ => some [1, 2, 3])
    (PidFile.new "logcabin.pid") (-4242) (by decide) rfl (by decide) rfl

/-- Write-then-remove round trip for process IDs of at most nine digits: after a
successful `writePid(pid)`, `removeFile()` with `fopen`, `fread` and `unlink`
succeeding deletes the file and resets `written` to `-1`. -/
theorem PidFile.writePid_removeFile_roundTrip (wenv : WriteEnv) (renv : RemoveEnv)
    (fs : FileSystem) (self : PidFile) (pid : Int)
    (hname : self.filename ≠ "") (h0 : 0 ≤ pid) (h9 : pid ≤ 999999999)
    (hopen : wenv.openOk = true) (hwrite : (formatPid pid).length ≤ wenv.writeLimit)
    (hclose : wenv.closeOk = true)
    (hropen : renv.openOk = true) (hread : 10 ≤ renv.readLimit)
    (hunlink : renv.unlinkOk = true) :
    ∃ fs1 file1, self.writePid wenv fs pid = .done (fs1, file1)
      ∧ fs1 self.filename = some (formatPid pid)
      ∧ file1.written = pid
      ∧ file1.removeFile renv fs1
          = .done (fs1.set self.filename none, { filename := self.filename, written := -1 }) := by
  refine ⟨_, _, PidFile.writePid_done wenv fs self pid hname hopen hwrite hclose,
    FileSystem.set_same _ _ _, rfl, ?_⟩
  obtain ⟨n, rfl⟩ := Int.eq_ofNat_of_zero_le h0
  have hn : n < 10 ^ 9 := by norm_num; omega
  have hlen : (decimalNat n).length ≤ 9 := decimalNat_length n 9 (by norm_num) hn
  have hfmt : formatPid (n : Int) = decimalNat n ++ [10] := by
    simp [formatPid, decimal]
  have hlen' : (formatPid (n : Int)).length = (decimalNat n).length + 1 := by
    simp [hfmt]
  have hbytes : min (min 10 (formatPid (n : Int)).length) renv.readLimit
      = (formatPid (n : Int)).length := by
    rw [hlen']; omega
  have hpos : (formatPid (n : Int)).length ≠ 0 := by rw [hlen']; omega
  have hbuf : readbufAfterRead (formatPid (n : Int)) (formatPid (n : Int)).length
      = decimalNat n ++ 10 :: List.replicate (10 - (formatPid (n : Int)).length) 0 := by
    unfold readbufAfterRead
    rw [List.take_length]
    simp [hfmt]
  have hatoi := atoi_decimalNat n (List.replicate (10 - (formatPid (n : Int)).length) 0)
  have h32 : toInt32 (n : Int) = (n : Int) :=
    toInt32_of_int (by unfold INT_MIN; omega) (by unfold INT_MAX; omega)
  have hw : ¬ ((n : Int) < 0) := by omega
  simp only [PidFile.removeFile, hw, if_false, hropen, FileSystem.set_same, hbytes, hbuf,
    hatoi, h32, hpos, hunlink]
  simp

/-- C1: the round trip at the ten-digit process ID `1000000000`. `writePid` succeeds
and leaves the eleven bytes `1000000000\n` in the file; in `removeFile`, `fread`
fills all ten bytes of `readbuf` with digits, so no terminating NUL is left in the
array and `atoi(readbuf)` reads past its end: the file is not known to be deleted
and `written` is not known to be reset. -/
theorem PidFile.roundTrip_tenDigits_undefined :
    ∃ fs1, (PidFile.new "logcabin.pid").writePid ⟨true, 11, true⟩ (fun _ => none) 1000000000
        = .done (fs1, { filename := "logcabin.pid", written := 1000000000 })
      ∧ fs1 "logcabin.pid" = some [49, 48, 48, 48, 48, 48, 48, 48, 48, 48, 10]
      ∧ readbufAfterRead [49, 48, 48, 48, 48, 48, 48, 48, 48, 48, 10] 10
          = [49, 48, 48, 48, 48, 48, 48, 48, 48, 48]
      ∧ ({ filename := "logcabin.pid", written := 1000000000 } : PidFile).removeFile
          ⟨true, 10, true⟩ fs1 = .undefined :=
  ⟨_, rfl, rfl, rfl, rfl⟩

/-- Every way `removeFile` can return: either nothing changed, or every guard of
the source was passed (`written >= 0`, the file was opened, at least one byte was
read, `atoi(readbuf)` equals `written`, `unlink` succeeded), the file is gone and
`written` is `-1`. -/
theorem PidFile.removeFile_done (env : RemoveEnv) (fs fs' : FileSystem) (self self' : PidFile)
    (h : self.removeFile env fs = .done (fs', self')) :
    (fs' = fs ∧ self' = self) ∨
    (0 ≤ self.written ∧ env.openOk = true ∧ env.unlinkOk = true ∧
      ∃ content, fs self.filename = some content
        ∧ 0 < min (min 10 content.length) env.readLimit
        ∧ atoi (readbufAfterRead content (min (min 10 content.length) env.readLimit))
            = some self.written
        ∧ fs' = fs.set self.filename none
        ∧ self' = { filename := self.filename, written := -1 }) := by
  unfold PidFile.removeFile at h
  split at h
  · left; cases h; exact ⟨rfl, rfl⟩
  · rename_i hw
    split at h
    · left; cases h; exact ⟨rfl, rfl⟩
    · rename_i ho
      split at h
      · left; cases h; exact ⟨rfl, rfl⟩
      · rename_i content hc
        simp only at h
        split at h
        · left; cases h; exact ⟨rfl, rfl⟩
        · rename_i hb
          split at h
          · cases h
          · rename_i pidRead ha
            split at h
            · left; cases h; exact ⟨rfl, rfl⟩
            · rename_i hp
              split at h
              · left; cases h; exact ⟨rfl, rfl⟩
              · rename_i hu
                right
                cases h
                refine ⟨by omega, by simpa using ho, by simpa using hu, content, hc,
                  by omega, ?_, rfl, rfl⟩
                have : pidRead = self.written := by simpa using hp
                rw [ha, this]

/-- When `removeFile` leaves the behaviour undefined: exactly when the file was
opened, at least one byte was read and `atoi` runs off the end of `readbuf`. -/
theorem PidFile.removeFile_undefined_iff (env : RemoveEnv) (fs : FileSystem) (self : PidFile) :
    self.removeFile env fs = .undefined ↔
      (0 ≤ self.written ∧ env.openOk = true ∧
        ∃ content, fs self.filename = some content
          ∧ 0 < min (min 10 content.length) env.readLimit
          ∧ atoi (readbufAfterRead content (min (min 10 content.length) env.readLimit))
              = none) := by
  unfold PidFile.removeFile
  constructor
  · intro h
    split at h
    · cases h
    · rename_i hw
      split at h
      · cases h
      · rename_i ho
        split at h
        · cases h
        · rename_i content hc
          simp only at h
          split at h
          · cases h
          · rename_i hb
            split at h
            · rename_i ha
              exact ⟨by omega, by simpa using ho, content, hc, by omega, ha⟩
            · split at h
              · cases h
              · split at h <;> cases h
  · rintro ⟨hw, ho, content, hc, hb, ha⟩
    have hw' : ¬ self.written < 0 := by omega
    have hb' : min (min 10 content.length) env.readLimit ≠ 0 := by omega
    simp only [hw', if_false, ho, hc, hb', ha]
    simp

/-- C2: `removeFile` on a file that holds ten digits while `written` is `5`: the file
opens, `fread` delivers ten bytes, none of them ends the scan of `atoi(readbuf)`,
which therefore reads past the end of the array; the call is not known to leave the
file in place. -/
theorem PidFile.removeFile_tenDigitFile_undefined :
    readbufAfterRead [49, 50, 51, 52, 53, 54, 55, 56, 57, 48, 10] 10
        = [49, 50, 51, 52, 53, 54, 55, 56, 57, 48]
      ∧ atoi [49, 50, 51, 52, 53, 54, 55, 56, 57, 48] = none
      ∧ ({ filename := "logcabin.pid", written := 5 } : PidFile).removeFile ⟨true, 10, true⟩
          (fun name => if name = "logcabin.pid"
            then some [49, 50, 51, 52, 53, 54, 55, 56, 57, 48, 10] else none)
        = .undefined :=
  ⟨rfl, rfl, rfl⟩

/-! ## `LocalServer::init` -/

/-- The destructor of a `PidFile` that never wrote changes nothing. -/
theorem PidFile.destroy_unwritten (env : RemoveEnv) (fs : FileSystem) (self : PidFile)
    (h : self.written < 0) : self.destroy env fs = .done (fs, self) := by
  simp [PidFile.destroy, PidFile.removeFile, h]

/-- With an empty file name `writePid` returns at once. -/
theorem PidFile.writePid_empty (env : WriteEnv) (fs : FileSystem) (pid written : Int) :
    ({ filename := "", written := written } : PidFile).writePid env fs pid
      = .done (fs, { filename := "", written := written }) := by
  simp [PidFile.writePid]

/-- The result of `init`, computed. -/
theorem LocalServer.init_eq (env : InitEnv) (fs : FileSystem) (configFilename : String)
    (bootstrap : Bool) :
    LocalServer.init env fs configFilename bootstrap =
      match (runCalls (LocalServer.tryBody env configFilename bootstrap)).2 with
      | .returns =>
        { calls := .setThreadName :: (runCalls (LocalServer.tryBody env configFilename bootstrap)).1,
          fs := fs, ending := .returned }
      | .throwsConfigException =>
        { calls := .setThreadName ::
            (runCalls (LocalServer.tryBody env configFilename bootstrap)).1 ++ [.logError],
          fs := fs, ending := .returned } := by
  have h1 : LocalServer.initPidFile env fs = .done (fs, { filename := "", written := -1 }) := by
    simp [LocalServer.initPidFile, PidFile.new, PidFile.writePid]
  unfold LocalServer.init
  rw [h1]
  simp only
  rw [PidFile.destroy_unwritten env.remove fs _ (by decide)]

/-- C4: in `init` the string `pidFilename` is empty, so `pidFile.writePid(getpid())`
returns at its first test: for every process ID, every file system and every
behaviour of the system calls, the file system after the statement is the one
before it and `written` is still `-1`; `init` as a whole leaves every file as it
was. No PID file is written. -/
theorem LocalServer.init_writes_no_pidFile (env : InitEnv) (fs : FileSystem)
    (configFilename : String) (bootstrap : Bool) :
    LocalServer.initPidFile env fs = .done (fs, { filename := "", written := -1 })
      ∧ (LocalServer.init env fs configFilename bootstrap).fs = fs := by
  constructor
  · simp [LocalServer.initPidFile, PidFile.new, PidFile.writePid]
  · rw [LocalServer.init_eq]
    split <;> rfl

/-- C5: when `readFile`, the read of `logPolicy` and `globals->init()` raise no
configuration exception, `readFile(configFilename)` is called before
`globals->init()`; then with `bootstrap` true `bootstrapConfiguration()` is called
after `globals->init()`, exactly once, and `leaveSignalsBlocked()` is not called;
with `bootstrap` false `leaveSignalsBlocked()` is called after `globals->init()`,
exactly once, and `bootstrapConfiguration()` is not called. -/
theorem LocalServer.init_call_order (env : InitEnv) (fs : FileSystem)
    (configFilename : String) (bootstrap : Bool)
    (h1 : env.readFile = .returns) (h2 : env.readLogPolicy = .returns)
    (h3 : env.globalsInit = .returns) :
    CalledBefore (.readFile configFilename) .globalsInit
        (LocalServer.init env fs configFilename bootstrap).calls
      ∧ (bootstrap = true →
          CalledBefore .globalsInit .bootstrapConfiguration
              (LocalServer.init env fs configFilename bootstrap).calls
            ∧ (LocalServer.init env fs configFilename bootstrap).calls.count
                .bootstrapConfiguration = 1
            ∧ (LocalServer.init env fs configFilename bootstrap).calls.count
                .leaveSignalsBlocked = 0)
      ∧ (bootstrap = false →
          CalledBefore .globalsInit .leaveSignalsBlocked
              (LocalServer.init env fs configFilename bootstrap).calls
            ∧ (LocalServer.init env fs configFilename bootstrap).calls.count
                .leaveSignalsBlocked = 1
            ∧ (LocalServer.init env fs configFilename bootstrap).calls.count
                .bootstrapConfiguration = 0) := by
  rw [LocalServer.init_eq]
  refine ⟨?_, ?_, ?_⟩
  · cases bootstrap
    · cases h5 : env.leaveSignalsBlocked
      · exact ⟨[.setThreadName], [.readLogPolicy, .setLogPolicy], [.leaveSignalsBlocked],
          by simp [LocalServer.tryBody, runCalls, h1, h2, h3, h5]⟩
      · exact ⟨[.setThreadName], [.readLogPolicy, .setLogPolicy],
          [.leaveSignalsBlocked, .logError],
          by simp [LocalServer.tryBody, runCalls, h1, h2, h3, h5]⟩
    · cases h4 : env.bootstrapConfiguration
      · exact ⟨[.setThreadName], [.readLogPolicy, .setLogPolicy], [.bootstrapConfiguration],
          by simp [LocalServer.tryBody, runCalls, h1, h2, h3, h4]⟩
      · exact ⟨[.setThreadName], [.readLogPolicy, .setLogPolicy],
          [.bootstrapConfiguration, .logError],
          by simp [LocalServer.tryBody, runCalls, h1, h2, h3, h4]⟩
  · rintro rfl
    cases h4 : env.bootstrapConfiguration
    · refine ⟨⟨[.setThreadName, .readFile configFilename, .readLogPolicy, .setLogPolicy], [],
        [], by simp [LocalServer.tryBody, runCalls, h1, h2, h3, h4]⟩, ?_, ?_⟩ <;>
        simp [LocalServer.tryBody, runCalls, h1, h2, h3, h4]
    · refine ⟨⟨[.setThreadName, .readFile configFilename, .readLogPolicy, .setLogPolicy], [],
        [.logError], by simp [LocalServer.tryBody, runCalls, h1, h2, h3, h4]⟩, ?_, ?_⟩ <;>
        simp [LocalServer.tryBody, runCalls, h1, h2, h3, h4]
  · rintro rfl
    cases h5 : env.leaveSignalsBlocked
    · refine ⟨⟨[.setThreadName, .readFile configFilename, .readLogPolicy, .setLogPolicy], [],
        [], by simp [LocalServer.tryBody, runCalls, h1, h2, h3, h5]⟩, ?_, ?_⟩ <;>
        simp [LocalServer.tryBody, runCalls, h1, h2, h3, h5]
    · refine ⟨⟨[.setThreadName, .readFile configFilename, .readLogPolicy, .setLogPolicy], [],
        [.logError], by simp [LocalServer.tryBody, runCalls, h1, h2, h3, h5]⟩, ?_, ?_⟩ <;>
        simp [LocalServer.tryBody, runCalls, h1, h2, h3, h5]

/-- C8: when `readFile(configFilename)` throws `Core::Config::Exception`, `init`
returns normally; the calls it made are `setName`, `readFile` and the `ERROR` log of
the handler, so neither `globals->init()` nor `bootstrapConfiguration()` nor
`leaveSignalsBlocked()` is called, whatever `bootstrap` is. -/
theorem LocalServer.init_config_exception (env : InitEnv) (fs : FileSystem)
    (configFilename : String) (bootstrap : Bool)
    (h : env.readFile = .throwsConfigException) :
    (LocalServer.init env fs configFilename bootstrap).ending = .returned
      ∧ (LocalServer.init env fs configFilename bootstrap).calls
          = [.setThreadName, .readFile configFilename, .logError]
      ∧ Call.globalsInit ∉ (LocalServer.init env fs configFilename bootstrap).calls
      ∧ Call.bootstrapConfiguration ∉ (LocalServer.init env fs configFilename bootstrap).calls
      ∧ Call.leaveSignalsBlocked ∉ (LocalServer.init env fs configFilename bootstrap).calls := by
  rw [LocalServer.init_eq]
  simp [LocalServer.tryBody, runCalls, h]

theorem LocalServer.init_call_order_witness :
    CalledBefore (.readFile "logcabin.conf") .globalsInit
        (LocalServer.init ⟨4242, ⟨true, 64, true⟩, ⟨true, 10, true⟩, .returns, .returns,
          .returns, .returns, .returns⟩ (fun _ => none) "logcabin.conf" true).calls
      ∧ (LocalServer.init ⟨4242, ⟨true, 64, true⟩, ⟨true, 10, true⟩, .returns, .returns,
          .returns, .returns, .returns⟩ (fun _ => none) "logcabin.conf" true).calls
        = [.setThreadName, .readFile "logcabin.conf", .readLogPolicy, .setLogPolicy,
           .globalsInit, .bootstrapConfiguration] :=
  ⟨(LocalServer.init_call_order ⟨4242, ⟨true, 64, true⟩, ⟨true, 10, true⟩, .returns, .returns,
      .returns, .returns, .returns⟩ (fun _ => none) "logcabin.conf" true rfl rfl rfl).1, rfl⟩

theorem LocalServer.init_config_exception_witness :
    (LocalServer.init ⟨4242, ⟨true, 64, true⟩, ⟨true, 10, true⟩, .throwsConfigException,
        .returns, .returns, .returns, .returns⟩ (fun _ => none) "missing.conf" false).ending
        = .returned
      ∧ (LocalServer.init ⟨4242, ⟨true, 64, true⟩, ⟨true, 10, true⟩, .throwsConfigException,
        .returns, .returns, .returns, .returns⟩ (fun _ => none) "missing.conf" false).calls
        = [.setThreadName, .readFile "missing.conf", .logError] :=
  ⟨(LocalServer.init_config_exception ⟨4242, ⟨true, 64, true⟩, ⟨true, 10, true⟩,
      .throwsConfigException, .returns, .returns, .returns, .returns⟩ (fun _ => none)
      "missing.conf" false rfl).1,
   (LocalServer.init_config_exception ⟨4242, ⟨true, 64, true⟩, ⟨true, 10, true⟩,
      .throwsConfigException, .returns, .returns, .returns, .returns⟩ (fun _ => none)
      "missing.conf" false rfl).2.1⟩

/-! ## Vote granting: `handleRequestVote` -/

namespace Raft

/-- C7: `handleRequestVote` grants the vote exactly when `req.term >= currentTerm`,
the receiver has no vote on record for `req.term` or has one for `req.candidateId`,
and the candidate's `(lastLogTerm, lastLogIndex)` is lexicographically at least the
receiver's; for every request and every receiver state. -/
theorem handleRequestVote_granted_iff (s : ServerState) (req : RequestVote) :
    (handleRequestVote s req).2.voteGranted = true ↔
      s.currentTerm ≤ req.term
        ∧ (s.votedForIn req.term = none ∨ s.votedForIn req.term = some req.candidateId)
        ∧ toLex (s.log.lastLogTerm, s.log.lastLogIndex)
            ≤ toLex (req.lastLogTerm, req.lastLogIndex) := by
  have hlex : logUpToDate req s.log = true ↔
      toLex (s.log.lastLogTerm, s.log.lastLogIndex)
        ≤ toLex (req.lastLogTerm, req.lastLogIndex) := by
    rw [Prod.Lex.le_iff]
    simp only [logUpToDate, Bool.or_eq_true, Bool.and_eq_true, decide_eq_true_eq]
    constructor
    · rintro (h | ⟨h1, h2⟩)
      · exact Or.inl h
      · exact Or.inr ⟨h1.symm, h2⟩
    · rintro (h | ⟨h1, h2⟩)
      · exact Or.inl h
      · exact Or.inr ⟨h1.symm, h2⟩
  rw [← hlex]
  rcases Nat.lt_trichotomy s.currentTerm req.term with h | h | h
  · have hne : s.currentTerm ≠ req.term := Nat.ne_of_lt h
    simp [handleRequestVote, adoptTerm, ServerState.votedForIn, h, hne, Nat.le_of_lt h]
  · simp [handleRequestVote, ServerState.votedForIn, h]
  · have hne : s.currentTerm ≠ req.term := Nat.ne_of_gt h
    simp [handleRequestVote, ServerState.votedForIn, hne, Nat.not_lt_of_gt h, Nat.not_le_of_gt h]

theorem handleRequestVote_term_le (s : ServerState) (req : RequestVote) :
    s.currentTerm ≤ (handleRequestVote s req).1.currentTerm := by
  unfold handleRequestVote
  by_cases h : s.currentTerm < req.term
  · simp only [h, if_true, adoptTerm]
    split <;> exact Nat.le_of_lt h
  · simp only [h, if_false]
    split <;> exact Nat.le_refl _

theorem handleRequestVote_reply_term (s : ServerState) (req : RequestVote) :
    (handleRequestVote s req).2.term = (handleRequestVote s req).1.currentTerm := rfl

theorem handleRequestVote_granted_vote (s : ServerState) (req : RequestVote)
    (h : (handleRequestVote s req).2.voteGranted = true) :
    (handleRequestVote s req).1.votedFor = some req.candidateId := by
  unfold handleRequestVote at h ⊢
  simp only at h ⊢
  rw [if_pos h]

theorem handleRequestVote_keeps_vote (s : ServerState) (req : RequestVote)
    (hterm : (handleRequestVote s req).1.currentTerm = s.currentTerm) (x : ServerId)
    (hx : s.votedFor = some x) : (handleRequestVote s req).1.votedFor = some x := by
  unfold handleRequestVote at hterm ⊢
  by_cases h : s.currentTerm < req.term
  · exfalso
    simp only [h, if_true, adoptTerm] at hterm
    split at hterm <;> exact (Nat.ne_of_lt h) hterm.symm
  · simp only [h, if_false]
    split
    · rename_i hg
      simp only [hx, Bool.and_eq_true, Bool.or_eq_true, decide_eq_true_eq] at hg
      rcases hg.1.2 with h1 | h1
      · cases h1
      · simp [h1]
    · exact hx

end Raft
end LogCabin
